import Mathlib

/-!
# Verification of the pyrdp MITM launcher and relay-engine specification

This file shallowly embeds `src/bin/pyrdp-rdpmitm.py` (the launcher) and, for
the relay-engine components whose code is not part of the source tree (the
binary PDU codec, the relay coordinator's session state machine and the
credential-substitution pipeline), models them from the specification.
Theorems at the end settle the frozen claims about the program.
-/

/- ### Launcher embedding (src/bin/pyrdp-rdpmitm.py) -/

/-- A file system, as an association list from paths to file contents
(contents abstracted as a `Nat` tag).  `os.path.exists` is `fileExists`. -/
def FileSystem : Type := List (String × Nat)

instance : DecidableEq FileSystem := by
  unfold FileSystem
  infer_instance

/-- `os.path.exists(p)`: the path has an entry in the file system. -/
def fileExists (fs : FileSystem) (p : String) : Bool :=
  (fs.lookup p).isSome

/-- Writing a file: the new entry shadows any older one. -/
def writeFile (fs : FileSystem) (p : String) (content : Nat) : FileSystem :=
  (p, content) :: fs

/-- Content tag for a freshly generated private key. -/
def genKeyContent : Nat := 1

/-- Content tag for a freshly generated certificate. -/
def genCertContent : Nat := 2

/-- `generateCertificate(keyPath, certificatePath)` shells out to
`openssl req -newkey ... -keyout keyPath -x509 ... -out certificatePath` and
returns whether the exit status was 0.  The external `openssl` run is
modelled by the oracle `genOk`: on success both files are written, on
failure the file system is unchanged.  Returns the new file system and the
boolean result of the Python function. -/
def generateCertificate (fs : FileSystem) (genOk : Bool)
    (keyPath certificatePath : String) : FileSystem × Bool :=
  if genOk then
    (writeFile (writeFile fs keyPath genKeyContent) certificatePath genCertContent, true)
  else
    (fs, false)

/-- Result of `handleKeyAndCertificates`: the resulting file system and
whether `generateCertificate` was invoked. -/
structure HKCResult where
  fs : FileSystem
  generationAttempted : Bool
deriving DecidableEq

/-- `handleKeyAndCertificates(certificate, key, mitm_log)` from the launcher:
if both files exist it only logs and leaves the file system alone; otherwise
it calls `generateCertificate(key, certificate)`, logging an error on failure
(logging has no effect on the model).  Note that on generation failure the
Python function returns normally: it does not raise or exit. -/
def handleKeyAndCertificates (certificate key : String) (fs : FileSystem)
    (genOk : Bool) : HKCResult :=
  if fileExists fs key && fileExists fs certificate then
    { fs := fs, generationAttempted := false }
  else
    { fs := (generateCertificate fs genOk key certificate).1, generationAttempted := true }

/-- `getSSLPaths()` default private-key path (`user_config_dir + "/private_key.pem"`);
the appdirs configuration directory is abstracted to a fixed string. -/
def defaultKeyPath : String := "pyrdp-config/private_key.pem"

/-- `getSSLPaths()` default certificate path. -/
def defaultCertificatePath : String := "pyrdp-config/certificate.pem"

/-- Outcome of `main`: either `sys.exit(1)` (no listener ever opened), or
`reactor.listenTCP` reached with the given key and certificate paths and the
file-system state at that moment. -/
inductive MainOutcome where
  | exitError
  | listen (key certificate : String) (fs : FileSystem)
deriving DecidableEq

/-- The key/certificate decision flow of `main` (lines 145-155 of the
launcher), up to and including reaching `reactor.listenTCP`.
`privateKeyArg`/`certificateArg` are `args.private_key`/`args.certificate`
(`None` when the option was not given); `genOk` is the `openssl` oracle. -/
def mainKeyCertFlow (privateKeyArg certificateArg : Option String)
    (fs : FileSystem) (genOk : Bool) : MainOutcome :=
  if privateKeyArg.isNone ≠ certificateArg.isNone then
    MainOutcome.exitError
  else if privateKeyArg.isNone then
    let r := handleKeyAndCertificates defaultCertificatePath defaultKeyPath fs genOk
    MainOutcome.listen defaultKeyPath defaultCertificatePath r.fs
  else
    MainOutcome.listen (privateKeyArg.getD "") (certificateArg.getD "") fs

/-- First index of `':'` in a character list, as Python's `target.index(":")`
(together with the `":" in target` guard). -/
def idxOfColon : List Char → Option Nat
  | [] => none
  | c :: cs => if c = ':' then some 0 else (idxOfColon cs).map (· + 1)

/-- Is `c` a decimal digit? -/
def isDigitChar (c : Char) : Bool := '0' ≤ c && c ≤ '9'

/-- Value of a nonempty all-digit string, `none` otherwise. -/
def digitsVal (l : List Char) : Option Nat :=
  if l ≠ [] && l.all isDigitChar then
    some (l.foldl (fun acc c => acc * 10 + (c.toNat - '0'.toNat)) 0)
  else
    none

/-- Python's `int(s)` on a string, modelled for the decimal forms the
launcher relies on: surrounding ASCII whitespace is stripped, an optional
sign precedes the digits (underscore digit-grouping and non-ASCII digits are
omitted).  `none` models `ValueError`. -/
def pyInt (s : List Char) : Option Int :=
  let t := ((s.dropWhile (·.isWhitespace)).reverse.dropWhile (·.isWhitespace)).reverse
  match t with
  | [] => none
  | c :: rest =>
    if c = '-' then (digitsVal rest).map (fun n => -(n : Int))
    else if c = '+' then (digitsVal rest).map (fun n => (n : Int))
    else (digitsVal t).map (fun n => (n : Int))

/-- Target parsing from `main` (lines 138-144): if the target contains a
colon, the host is the part before the first colon and the port is
`int(<part after the first colon>)`; otherwise the host is the whole string
and the port defaults to 3389.  `none` as port models the `ValueError`
raised by `int`. -/
def parseTarget (target : List Char) : List Char × Option Int :=
  match idxOfColon target with
  | some i => (target.take i, pyInt (target.drop (i + 1)))
  | none => (target, some 3389)

/- ### Binary PDU codec

Modelled from the spec: the codec itself is not part of the source tree
(the launcher only constructs the `MITMServer` that owns it), so §4.1 of the
spec is the authority.  Bytes are `Nat` values below 256.  A PDU is framed
by a four-byte TPKT header (version byte 3, reserved byte 0, big-endian
16-bit total length including the header); numeric body fields are
little-endian; unknown body tags decode to an opaque variant carrying the
raw bytes, guaranteeing lossless relay. -/

/-- A decoded protocol unit (spec §3, "PDU"): the connection-sequence and
channel variants the claims exercise, plus the opaque fallback. -/
inductive PDU where
  | negotiationRequest (requestedProtocols : Nat)
  | negotiationResponse (selectedProtocol : Nat)
  | clientInfo (username password : List Nat)
  | virtualChannelData (channelId : Nat) (payload : List Nat)
  | opaquePdu (tag : Nat) (payload : List Nat)
deriving DecidableEq, Repr

/-- Little-endian 16-bit encoding. -/
def le16 (n : Nat) : List Nat := [n % 256, n / 256 % 256]

/-- Little-endian 32-bit encoding. -/
def le32 (n : Nat) : List Nat :=
  [n % 256, n / 256 % 256, n / 65536 % 256, n / 16777216 % 256]

/-- Value of a 4-byte little-endian field. -/
def le32val : List Nat → Nat
  | a :: b :: c :: d :: _ => a + 256 * b + 65536 * c + 16777216 * d
  | _ => 0

/-- Body of a PDU (everything after the TPKT header): a one-byte tag
followed by the variant's fields. -/
def encodeBody : PDU → List Nat
  | PDU.negotiationRequest protos => 1 :: le32 protos
  | PDU.negotiationResponse proto => 2 :: le32 proto
  | PDU.clientInfo user pass => 3 :: (le16 user.length ++ user ++ le16 pass.length ++ pass)
  | PDU.virtualChannelData cid payload => 4 :: (le16 cid ++ payload)
  | PDU.opaquePdu tag payload => tag :: payload

/-- `encode(PDU) → buffer` (spec §4.1): TPKT header then body.  The
two length bytes are big-endian and cover the header itself. -/
def encode (p : PDU) : List Nat :=
  let body := encodeBody p
  let total := 4 + body.length
  3 :: 0 :: total / 256 :: total % 256 :: body

/-- Well-formedness of a PDU for encoding: numeric fields fit their wire
width, byte lists hold bytes, the total length fits the 16-bit TPKT length
field, and an opaque tag is a byte distinct from the assigned tags. -/
def WFPdu : PDU → Prop
  | PDU.negotiationRequest protos => protos < 4294967296
  | PDU.negotiationResponse proto => proto < 4294967296
  | PDU.clientInfo user pass =>
      user.length < 65536 ∧ pass.length < 65536 ∧
      9 + user.length + pass.length < 65536 ∧
      (∀ b ∈ user, b < 256) ∧ (∀ b ∈ pass, b < 256)
  | PDU.virtualChannelData cid payload =>
      cid < 65536 ∧ 7 + payload.length < 65536 ∧ ∀ b ∈ payload, b < 256
  | PDU.opaquePdu tag payload =>
      tag < 256 ∧ tag ≠ 1 ∧ tag ≠ 2 ∧ tag ≠ 3 ∧ tag ≠ 4 ∧
      5 + payload.length < 65536 ∧ ∀ b ∈ payload, b < 256

instance : DecidablePred WFPdu := by
  intro p
  cases p <;> simp [WFPdu] <;> infer_instance

/-- Parse the body of a Client Info PDU (after its tag byte): a 16-bit
little-endian username length, the username bytes, a 16-bit little-endian
password length, then the password bytes, which must fill the body exactly
(a leftover or shortfall is a length mismatch, hence `Malformed`). -/
def parseClientInfoBody (b : List Nat) : Option PDU :=
  match b with
  | l0 :: l1 :: rest =>
    let ulen := l0 + 256 * l1
    if ulen ≤ rest.length then
      match rest.drop ulen with
      | p0 :: p1 :: rest2 =>
        if p0 + 256 * p1 = rest2.length then
          some (PDU.clientInfo (rest.take ulen) rest2)
        else none
      | _ => none
    else none
  | _ => none

/-- Parse a PDU body (tag byte plus fields).  A known tag whose fields do
not account for exactly the body length is a mismatch (`none`, surfaced as
`Malformed`); an unknown tag decodes to the opaque variant (spec §4.1,
lossless relay of unimplemented PDU types). -/
def parseBody (b : List Nat) : Option PDU :=
  match b with
  | [] => none
  | t :: rest =>
    if t = 1 then
      if rest.length = 4 then some (PDU.negotiationRequest (le32val rest)) else none
    else if t = 2 then
      if rest.length = 4 then some (PDU.negotiationResponse (le32val rest)) else none
    else if t = 3 then
      parseClientInfoBody rest
    else if t = 4 then
      match rest with
      | c0 :: c1 :: payload => some (PDU.virtualChannelData (c0 + 256 * c1) payload)
      | _ => none
    else
      some (PDU.opaquePdu t rest)

/-- Result of `decode`: `(PDU, bytesConsumed)`, `NeedMoreData` (which
consumes no input: the constructor returns nothing, the caller keeps its
whole buffer and re-invokes with more bytes appended), or `Malformed`. -/
inductive DecodeResult where
  | ok (pdu : PDU) (bytesConsumed : Nat)
  | needMoreData
  | malformed
deriving DecidableEq, Repr

/-- The declared total length of the frame at the head of a buffer (the
big-endian 16-bit TPKT length field). -/
def declaredLen : List Nat → Nat
  | _ :: _ :: hi :: lo :: _ => 256 * hi + lo
  | _ => 0

/-- `decode(buffer) → (PDU, bytesConsumed) | NeedMoreData | Malformed`
(spec §4.1).  With fewer than four bytes, or fewer bytes than the declared
total length, the codec asks for more data; only once the declared length
is available does it validate the header and the body, reporting
`Malformed` when a layer's declared length does not match the bytes its
fields consume. -/
def decode (buffer : List Nat) : DecodeResult :=
  match buffer with
  | v :: r :: hi :: lo :: rest =>
    let total := 256 * hi + lo
    if rest.length + 4 < total then DecodeResult.needMoreData
    else if v ≠ 3 ∨ r ≠ 0 then DecodeResult.malformed
    else if total < 5 then DecodeResult.malformed
    else
      match parseBody (rest.take (total - 4)) with
      | some p => DecodeResult.ok p total
      | none => DecodeResult.malformed
  | _ => DecodeResult.needMoreData

/- ### Relay coordinator session state machine

Modelled from the spec: the relay coordinator and leg state machines are not
part of the source tree (the launcher only builds the `MITMServer`), so
§3-§4.4 of the spec are the authority.  One session owns two legs; the
coordinator advances them in lockstep through the connection sequence,
records the channel list at the MCS connect exchange and the capability set
at the demand/confirm-active exchange, validates them equal before
transitioning either leg to `Connected`, and on any failure or close event
closes both legs and finalizes the session (flushing the recording and
notifying the live-stream sink) exactly once. -/

/-- Leg state-machine states (spec §4.3). -/
inductive LegState where
  | awaitingNegotiation
  | awaitingMCSConnect
  | awaitingSecurityExchange
  | awaitingClientInfo
  | awaitingLicensing
  | awaitingDemandActive
  | connected
  | closed
deriving DecidableEq, Repr

/-- Which leg of the session an event concerns. -/
inductive LegId where
  | client
  | server
deriving DecidableEq, Repr

/-- A negotiated channel: name plus numeric id (spec §3, "Channel
Descriptor"; flags folded into the abstraction). -/
structure ChannelDescriptor where
  id : Nat
  name : String
deriving DecidableEq, Repr

/-- Why a session terminated (spec §7 error taxonomy, restricted to the
reasons the coordinator model produces). -/
inductive TerminationReason where
  | negotiationFailed (leg : LegId)
  | negotiationMismatch
  | reject
  | legClosed (leg : LegId)
deriving DecidableEq, Repr

/-- Session status: live, or terminated with its recorded reason. -/
inductive SessionStatus where
  | active
  | terminated (reason : TerminationReason)
deriving DecidableEq, Repr

/-- The state of one MITM session: both legs' state-machine states, the
channel lists and capability sets recorded on each leg during negotiation,
the session status, and the finalization bookkeeping (recording flushed,
live-stream sink notified, number of times finalization ran). -/
structure SessionState where
  clientLeg : LegState
  serverLeg : LegState
  clientChannels : List ChannelDescriptor
  serverChannels : List ChannelDescriptor
  clientCaps : List Nat
  serverCaps : List Nat
  status : SessionStatus
  finalizeCount : Nat
  recordingFlushed : Bool
  streamNotified : Bool
deriving DecidableEq, Repr

/-- Events driving one session, as seen by the relay coordinator: the
lockstep connection-sequence exchanges (each completes one step on both
legs; the MCS connect and demand-active events carry what each leg
negotiated), a negotiation failure on a leg (`NegotiationFailed`), and a
clean or abrupt close of a leg. -/
inductive MitmEvent where
  | negotiationStep
  | mcsConnect (clientCh serverCh : List ChannelDescriptor)
  | securityExchange
  | clientInfoStep
  | licensing
  | demandActive (clientCaps serverCaps : List Nat)
  | fail (leg : LegId)
  | closeLeg (leg : LegId)
deriving DecidableEq, Repr

/-- Fresh session state: both legs awaiting the negotiation exchange,
nothing recorded, nothing finalized. -/
def initSession : SessionState :=
  { clientLeg := LegState.awaitingNegotiation
    serverLeg := LegState.awaitingNegotiation
    clientChannels := []
    serverChannels := []
    clientCaps := []
    serverCaps := []
    status := SessionStatus.active
    finalizeCount := 0
    recordingFlushed := false
    streamNotified := false }

/-- Finalize a session (spec §4.4 disconnect handling): close both legs,
record the termination reason, flush the recording sink, notify the
live-stream sink of termination.  Only ever applied to an active session,
so the count increments from zero. -/
def finalizeSession (s : SessionState) (r : TerminationReason) : SessionState :=
  { s with
    clientLeg := LegState.closed
    serverLeg := LegState.closed
    status := SessionStatus.terminated r
    finalizeCount := s.finalizeCount + 1
    recordingFlushed := true
    streamNotified := true }

/-- One coordinator step.  A terminated session absorbs every event
(`Closed` is absorbing, spec §4.3).  On an active session: a leg failure or
a leg close finalizes the session; a connection-sequence event advances
both legs in lockstep when both are in the expected state, and otherwise is
an out-of-order PDU, a `Reject` that terminates the session (spec §7); the
demand-active exchange first validates that both legs recorded identical
channel lists and identical capability sets before transitioning both to
`Connected`, failing with `NegotiationMismatch` otherwise (spec §4.4). -/
def stepSession (s : SessionState) (e : MitmEvent) : SessionState :=
  match s.status with
  | SessionStatus.terminated _ => s
  | SessionStatus.active =>
    match e with
    | MitmEvent.fail leg => finalizeSession s (TerminationReason.negotiationFailed leg)
    | MitmEvent.closeLeg leg => finalizeSession s (TerminationReason.legClosed leg)
    | MitmEvent.negotiationStep =>
      if s.clientLeg = LegState.awaitingNegotiation ∧ s.serverLeg = LegState.awaitingNegotiation then
        { s with clientLeg := LegState.awaitingMCSConnect, serverLeg := LegState.awaitingMCSConnect }
      else finalizeSession s TerminationReason.reject
    | MitmEvent.mcsConnect cCh sCh =>
      if s.clientLeg = LegState.awaitingMCSConnect ∧ s.serverLeg = LegState.awaitingMCSConnect then
        { s with
          clientLeg := LegState.awaitingSecurityExchange
          serverLeg := LegState.awaitingSecurityExchange
          clientChannels := cCh
          serverChannels := sCh }
      else finalizeSession s TerminationReason.reject
    | MitmEvent.securityExchange =>
      if s.clientLeg = LegState.awaitingSecurityExchange ∧ s.serverLeg = LegState.awaitingSecurityExchange then
        { s with clientLeg := LegState.awaitingClientInfo, serverLeg := LegState.awaitingClientInfo }
      else finalizeSession s TerminationReason.reject
    | MitmEvent.clientInfoStep =>
      if s.clientLeg = LegState.awaitingClientInfo ∧ s.serverLeg = LegState.awaitingClientInfo then
        { s with clientLeg := LegState.awaitingLicensing, serverLeg := LegState.awaitingLicensing }
      else finalizeSession s TerminationReason.reject
    | MitmEvent.licensing =>
      if s.clientLeg = LegState.awaitingLicensing ∧ s.serverLeg = LegState.awaitingLicensing then
        { s with clientLeg := LegState.awaitingDemandActive, serverLeg := LegState.awaitingDemandActive }
      else finalizeSession s TerminationReason.reject
    | MitmEvent.demandActive cCaps sCaps =>
      if s.clientLeg = LegState.awaitingDemandActive ∧ s.serverLeg = LegState.awaitingDemandActive then
        if s.clientChannels = s.serverChannels ∧ cCaps = sCaps then
          { s with
            clientLeg := LegState.connected
            serverLeg := LegState.connected
            clientCaps := cCaps
            serverCaps := sCaps }
        else finalizeSession s TerminationReason.negotiationMismatch
      else finalizeSession s TerminationReason.reject

/-- Run a session from the fresh state over a list of events. -/
def runMitm (es : List MitmEvent) : SessionState :=
  es.foldl stepSession initSession

/-- A session is in pass-through mode when both legs are `Connected`. -/
def passThrough (s : SessionState) : Prop :=
  s.clientLeg = LegState.connected ∧ s.serverLeg = LegState.connected

/- ### Credential substitution

Modelled from the spec: the credential-substitution point of the relay
coordinator (spec §4.4 and §3 "Credential Pair") is not part of the source
tree; the launcher only passes the replacement `username`/`password` pair
down to the `MITMServer`.  The substituted pair, when configured, replaces
the client-provided one before the Client Info PDU is encoded toward the
server; the original pair is handed to the recording pipeline only. -/

/-- A username/password pair (spec §3, "Credential Pair"). -/
structure CredentialPair where
  username : String
  password : String
deriving DecidableEq, Repr

/-- UTF-16LE encoding of a string, two bytes per code unit (the model
restricts to the basic multilingual plane, one code unit per character). -/
def encodeUtf16le (s : String) : List Nat :=
  (s.data.map (fun c => [c.toNat % 256, c.toNat / 256 % 256])).flatten

/-- The credentials actually used toward the server: the substituted pair
when one is configured, otherwise the client-supplied pair. -/
def effectiveCredentials (substituted : Option CredentialPair)
    (client : CredentialPair) : CredentialPair :=
  substituted.getD client

/-- The Client Info byte stream the coordinator encodes toward the server
leg: the effective credentials, framed by the codec. -/
def serverLegClientInfoBytes (substituted : Option CredentialPair)
    (client : CredentialPair) : List Nat :=
  encode (PDU.clientInfo
    (encodeUtf16le (effectiveCredentials substituted client).username)
    (encodeUtf16le (effectiveCredentials substituted client).password))

/-- The credentials delivered to the recording sink: always the pair the
client actually supplied (spec §3: the original pair is retained only for
recording purposes). -/
def recordedCredentials (_substituted : Option CredentialPair)
    (client : CredentialPair) : CredentialPair :=
  client

/-- Does `needle` start `hay`? -/
def bytesStartWith : List Nat → List Nat → Bool
  | [], _ => true
  | _ :: _, [] => false
  | a :: as, b :: bs => a = b && bytesStartWith as bs

/-- Does `needle` occur contiguously anywhere in `hay`? -/
def bytesContain (needle : List Nat) : List Nat → Bool
  | [] => needle.isEmpty
  | b :: rest => bytesStartWith needle (b :: rest) || bytesContain needle rest

/-- Coordinator invariant: while active, nothing is finalized, the two legs
are in the same (non-closed) state — the lockstep guarantee of spec §5 —
and a connected leg has validated channel and capability agreement; once
terminated, finalization ran exactly once and both legs are closed. -/
def SessionInv (s : SessionState) : Prop :=
  (s.status = SessionStatus.active →
    s.finalizeCount = 0 ∧ s.recordingFlushed = false ∧ s.streamNotified = false ∧
    s.clientLeg = s.serverLeg ∧ s.clientLeg ≠ LegState.closed ∧
    (s.clientLeg = LegState.connected →
      s.clientChannels = s.serverChannels ∧ s.clientCaps = s.serverCaps))
  ∧ (s.status ≠ SessionStatus.active →
    s.finalizeCount = 1 ∧ s.recordingFlushed = true ∧ s.streamNotified = true ∧
    s.clientLeg = LegState.closed ∧ s.serverLeg = LegState.closed)

/- ### Helper lemmas -/

theorem sessionInv_init : SessionInv initSession := by
  constructor
  · intro _
    simp [initSession]
  · intro h
    simp [initSession] at h

theorem stepSession_of_terminated (s : SessionState) (e : MitmEvent)
    (h : s.status ≠ SessionStatus.active) : stepSession s e = s := by
  rcases hst : s.status with _ | r
  · exact absurd hst h
  · simp [stepSession, hst]

theorem finalizeSession_inv (s : SessionState) (r : TerminationReason)
    (hc0 : s.finalizeCount = 0) : SessionInv (finalizeSession s r) := by
  refine ⟨fun hac => ?_, fun _ => ?_⟩
  · simp [finalizeSession] at hac
  · simp [finalizeSession, hc0]

theorem stepSession_preserves (s : SessionState) (e : MitmEvent)
    (h : SessionInv s) : SessionInv (stepSession s e) := by
  by_cases hst : s.status = SessionStatus.active
  case neg =>
    rw [stepSession_of_terminated s e hst]
    exact h
  case pos =>
  obtain ⟨hc0, hrf, hsn, hleg, hncl, hconn⟩ := h.1 hst
  cases e with
  | fail leg =>
    simp only [stepSession, hst]
    exact finalizeSession_inv s _ hc0
  | closeLeg leg =>
    simp only [stepSession, hst]
    exact finalizeSession_inv s _ hc0
  | negotiationStep =>
    simp only [stepSession, hst]
    split_ifs with h1
    · refine ⟨fun _ => ?_, fun hna => absurd rfl hna⟩
      simp [hc0, hrf, hsn]
    · exact finalizeSession_inv s _ hc0
  | mcsConnect cCh sCh =>
    simp only [stepSession, hst]
    split_ifs with h1
    · refine ⟨fun _ => ?_, fun hna => absurd rfl hna⟩
      simp [hc0, hrf, hsn]
    · exact finalizeSession_inv s _ hc0
  | securityExchange =>
    simp only [stepSession, hst]
    split_ifs with h1
    · refine ⟨fun _ => ?_, fun hna => absurd rfl hna⟩
      simp [hc0, hrf, hsn]
    · exact finalizeSession_inv s _ hc0
  | clientInfoStep =>
    simp only [stepSession, hst]
    split_ifs with h1
    · refine ⟨fun _ => ?_, fun hna => absurd rfl hna⟩
      simp [hc0, hrf, hsn]
    · exact finalizeSession_inv s _ hc0
  | licensing =>
    simp only [stepSession, hst]
    split_ifs with h1
    · refine ⟨fun _ => ?_, fun hna => absurd rfl hna⟩
      simp [hc0, hrf, hsn]
    · exact finalizeSession_inv s _ hc0
  | demandActive cCaps sCaps =>
    simp only [stepSession, hst]
    split_ifs with h1 h2
    · refine ⟨fun _ => ?_, fun hna => absurd rfl hna⟩
      simp [hc0, hrf, hsn, h2.1, h2.2]
    · exact finalizeSession_inv s _ hc0
    · exact finalizeSession_inv s _ hc0

theorem foldl_stepSession_inv (es : List MitmEvent) (s : SessionState)
    (h : SessionInv s) : SessionInv (es.foldl stepSession s) := by
  induction es generalizing s with
  | nil => exact h
  | cons e es ih => exact ih _ (stepSession_preserves s e h)

theorem runMitm_inv (es : List MitmEvent) : SessionInv (runMitm es) :=
  foldl_stepSession_inv es initSession sessionInv_init

theorem foldl_stepSession_of_terminated (es : List MitmEvent) (s : SessionState)
    (h : s.status ≠ SessionStatus.active) : es.foldl stepSession s = s := by
  induction es with
  | nil => rfl
  | cons e es ih => rw [List.foldl_cons, stepSession_of_terminated s e h, ih]

theorem stepSession_fail_not_active (s : SessionState) (leg : LegId) :
    (stepSession s (MitmEvent.fail leg)).status ≠ SessionStatus.active := by
  by_cases hst : s.status = SessionStatus.active
  · simp [stepSession, hst, finalizeSession]
  · rw [stepSession_of_terminated s _ hst]
    exact hst

theorem stepSession_close_not_active (s : SessionState) (leg : LegId) :
    (stepSession s (MitmEvent.closeLeg leg)).status ≠ SessionStatus.active := by
  by_cases hst : s.status = SessionStatus.active
  · simp [stepSession, hst, finalizeSession]
  · rw [stepSession_of_terminated s _ hst]
    exact hst

theorem foldl_stepSession_not_active_of_mem (es : List MitmEvent) (s : SessionState)
    (e0 : MitmEvent) (he : e0 ∈ es)
    (hterm : ∀ t : SessionState, (stepSession t e0).status ≠ SessionStatus.active) :
    (es.foldl stepSession s).status ≠ SessionStatus.active := by
  induction es generalizing s with
  | nil => exact absurd he (List.not_mem_nil e0)
  | cons e es ih =>
    rcases List.mem_cons.mp he with rfl | hmem
    · rw [List.foldl_cons]
      by_cases hes : (stepSession s e0).status = SessionStatus.active
      · exact absurd hes (hterm s)
      · rw [foldl_stepSession_of_terminated es _ hes]
        exact hterm s
    · exact ih _ hmem

theorem status_not_active_iff (s : SessionState) :
    s.status ≠ SessionStatus.active ↔ ∃ r, s.status = SessionStatus.terminated r := by
  rcases hst : s.status with _ | r
  · simp
  · simp

/- ### Claim theorems -/

/-- C8: if exactly one of the `--private-key` and `--certificate` options is
provided, `main` exits with status 1 before any listener is opened; the TCP
listener is started exactly when both or neither are provided. -/
theorem exit_iff_exactly_one_of_key_cert (pk cert : Option String)
    (fs : FileSystem) (genOk : Bool) :
    (mainKeyCertFlow pk cert fs genOk = MainOutcome.exitError ↔ pk.isNone ≠ cert.isNone)
    ∧ ((∃ k c fs2, mainKeyCertFlow pk cert fs genOk = MainOutcome.listen k c fs2)
        ↔ ¬(pk.isNone ≠ cert.isNone)) := by
  rcases pk with _ | k <;> rcases cert with _ | c <;> simp [mainKeyCertFlow]

/-- Witness for C8 at concrete inputs: with only a private key given the
flow exits; with neither given it listens. -/
theorem exit_iff_exactly_one_of_key_cert_witness :
    mainKeyCertFlow (some "k.pem") none [] true = MainOutcome.exitError
    ∧ (∃ k c fs2, mainKeyCertFlow none none [] true = MainOutcome.listen k c fs2) := by
  constructor
  · exact (exit_iff_exactly_one_of_key_cert (some "k.pem") none [] true).1.mpr (by decide)
  · exact (exit_iff_exactly_one_of_key_cert none none [] true).2.mpr (by decide)

theorem idxOfColon_of_not_mem (t : List Char) (h : ':' ∉ t) :
    idxOfColon t = none := by
  induction t with
  | nil => rfl
  | cons c cs ih =>
    rw [List.mem_cons, not_or] at h
    have hc : ¬(c = ':') := fun hc => h.1 hc.symm
    rw [idxOfColon, if_neg hc, ih h.2]
    rfl

theorem idxOfColon_append (pre post : List Char) (h : ':' ∉ pre) :
    idxOfColon (pre ++ ':' :: post) = some pre.length := by
  induction pre with
  | nil => simp [idxOfColon]
  | cons c cs ih =>
    rw [List.mem_cons, not_or] at h
    have hc : ¬(c = ':') := fun hc => h.1 hc.symm
    rw [List.cons_append, idxOfColon, if_neg hc, ih h.2]
    rfl

/-- C9: target parsing — with a colon present, the host is the substring
before the first colon and the port is `int` of everything after the first
colon; without a colon, the host is the whole string and the port defaults
to 3389. -/
theorem parseTarget_splits_on_first_colon (pre post t : List Char)
    (hpre : ':' ∉ pre) (ht : ':' ∉ t) :
    parseTarget (pre ++ ':' :: post) = (pre, pyInt post)
    ∧ parseTarget t = (t, some 3389) := by
  constructor
  · have htake : (pre ++ ':' :: post).take pre.length = pre := List.take_left pre _
    have hdrop : (pre ++ ':' :: post).drop (pre.length + 1) = post := by
      rw [show pre.length + 1 = (pre ++ [':']).length by simp,
          show pre ++ ':' :: post = (pre ++ [':']) ++ post by simp]
      exact List.drop_left _ _
    simp only [parseTarget, idxOfColon_append pre post hpre, htake, hdrop]
  · simp only [parseTarget, idxOfColon_of_not_mem t ht]

/-- Witness for C9 on a concrete target with and without a port. -/
theorem parseTarget_splits_on_first_colon_witness :
    parseTarget ("192.168.0.2:3390".data) = ("192.168.0.2".data, some 3390)
    ∧ parseTarget ("rdphost".data) = ("rdphost".data, some 3389) := by
  have h := parseTarget_splits_on_first_colon "192.168.0.2".data "3390".data
    "rdphost".data (by decide) (by decide)
  constructor
  · have heq : ("192.168.0.2:3390".data) = "192.168.0.2".data ++ ':' :: "3390".data := by
      decide
    rw [heq, h.1]
    decide
  · exact h.2

/-- C10: when both the private key and the certificate already exist,
`handleKeyAndCertificates` leaves the file system untouched (so no
pre-existing file is overwritten by certificate generation) and does not
invoke `generateCertificate`; generation is attempted exactly when at least
one of the two files is missing. -/
theorem no_generation_when_files_exist (certificate key : String)
    (fs : FileSystem) (genOk : Bool)
    (hk : fileExists fs key = true) (hc : fileExists fs certificate = true) :
    handleKeyAndCertificates certificate key fs genOk
      = { fs := fs, generationAttempted := false }
    ∧ ∀ (fs2 : FileSystem) (g2 : Bool),
        ((handleKeyAndCertificates certificate key fs2 g2).generationAttempted = true
          ↔ (fileExists fs2 key = false ∨ fileExists fs2 certificate = false)) := by
  constructor
  · simp [handleKeyAndCertificates, hk, hc]
  · intro fs2 g2
    by_cases h2k : fileExists fs2 key <;> by_cases h2c : fileExists fs2 certificate <;>
      simp [handleKeyAndCertificates, h2k, h2c]

/-- Witness for C10: a file system already holding both files is returned
unchanged, with no generation attempt. -/
theorem no_generation_when_files_exist_witness :
    handleKeyAndCertificates "c.pem" "k.pem" [("k.pem", 1), ("c.pem", 2)] true
      = { fs := [("k.pem", 1), ("c.pem", 2)], generationAttempted := false } :=
  (no_generation_when_files_exist "c.pem" "k.pem" [("k.pem", 1), ("c.pem", 2)] true
    (by decide) (by decide)).1

/-- C4 (code bug exhibited): with neither `-k` nor `-c` given, no
pre-existing default files, and a failing `openssl` generation, `main`
still reaches `reactor.listenTCP`, with key and certificate paths that
refer to no existing file — `handleKeyAndCertificates` only logs the
generation failure and returns normally. -/
theorem listener_opens_without_valid_key_cert :
    mainKeyCertFlow none none [] false
      = MainOutcome.listen defaultKeyPath defaultCertificatePath []
    ∧ fileExists [] defaultKeyPath = false
    ∧ fileExists [] defaultCertificatePath = false :=
  ⟨rfl, rfl, rfl⟩

/-- C2: the two legs reach the connected state together or not at all — in
every run the two legs are `Connected` together (the coordinator's lockstep
guarantee), and once a leg fails during the connection sequence the session
is terminated with a recorded reason and both legs are closed, never left
half-negotiated. -/
theorem legs_connect_together_and_failure_closes_both (es : List MitmEvent)
    (leg : LegId) (h : MitmEvent.fail leg ∈ es) :
    (∃ r, (runMitm es).status = SessionStatus.terminated r)
    ∧ (runMitm es).clientLeg = LegState.closed
    ∧ (runMitm es).serverLeg = LegState.closed
    ∧ ∀ es2 : List MitmEvent,
        ((runMitm es2).clientLeg = LegState.connected
          ↔ (runMitm es2).serverLeg = LegState.connected) := by
  have hna : (runMitm es).status ≠ SessionStatus.active :=
    foldl_stepSession_not_active_of_mem es initSession (MitmEvent.fail leg) h
      (fun t => stepSession_fail_not_active t leg)
  obtain ⟨_, _, _, hcl, hsl⟩ := (runMitm_inv es).2 hna
  refine ⟨(status_not_active_iff _).mp hna, hcl, hsl, ?_⟩
  intro es2
  by_cases h2 : (runMitm es2).status = SessionStatus.active
  · rw [((runMitm_inv es2).1 h2).2.2.2.1]
  · obtain ⟨_, _, _, hcl2, hsl2⟩ := (runMitm_inv es2).2 h2
    rw [hcl2, hsl2]

/-- Witness for C2: a client-leg negotiation failure leaves the session
terminated with both legs closed. -/
theorem legs_connect_together_witness :
    (∃ r, (runMitm [MitmEvent.fail LegId.client]).status = SessionStatus.terminated r)
    ∧ (runMitm [MitmEvent.fail LegId.client]).clientLeg = LegState.closed
    ∧ (runMitm [MitmEvent.fail LegId.client]).serverLeg = LegState.closed := by
  have h := legs_connect_together_and_failure_closes_both
    [MitmEvent.fail LegId.client] LegId.client (by decide)
  exact ⟨h.1, h.2.1, h.2.2.1⟩

/-- C5: pass-through (both legs `Connected`) holds only with validated
identical channel lists and capability sets; a session whose two legs
recorded differing channel lists fails the demand-active validation with
`NegotiationMismatch` and both legs closed — it never silently connects. -/
theorem passthrough_requires_matching_channels (es : List MitmEvent)
    (cCaps sCaps : List Nat)
    (hcl : (runMitm es).clientLeg = LegState.awaitingDemandActive)
    (hsl : (runMitm es).serverLeg = LegState.awaitingDemandActive)
    (hne : (runMitm es).clientChannels ≠ (runMitm es).serverChannels) :
    (runMitm (es ++ [MitmEvent.demandActive cCaps sCaps])).status
      = SessionStatus.terminated TerminationReason.negotiationMismatch
    ∧ (runMitm (es ++ [MitmEvent.demandActive cCaps sCaps])).clientLeg = LegState.closed
    ∧ (runMitm (es ++ [MitmEvent.demandActive cCaps sCaps])).serverLeg = LegState.closed
    ∧ ∀ es2 : List MitmEvent, passThrough (runMitm es2) →
        (runMitm es2).clientChannels = (runMitm es2).serverChannels
        ∧ (runMitm es2).clientCaps = (runMitm es2).serverCaps := by
  have hact : (runMitm es).status = SessionStatus.active := by
    by_contra h2
    have hcl2 := ((runMitm_inv es).2 h2).2.2.2.1
    rw [hcl2] at hcl
    exact absurd hcl (by decide)
  have hrun : runMitm (es ++ [MitmEvent.demandActive cCaps sCaps])
      = stepSession (runMitm es) (MitmEvent.demandActive cCaps sCaps) := by
    rw [runMitm, runMitm, List.foldl_append]
    rfl
  have hstep : stepSession (runMitm es) (MitmEvent.demandActive cCaps sCaps)
      = finalizeSession (runMitm es) TerminationReason.negotiationMismatch := by
    simp only [stepSession, hact]
    rw [if_pos ⟨hcl, hsl⟩, if_neg (fun hcontra => hne hcontra.1)]
  refine ⟨?_, ?_, ?_, ?_⟩
  · rw [hrun, hstep]
    rfl
  · rw [hrun, hstep]
    rfl
  · rw [hrun, hstep]
    rfl
  · intro es2 hpt
    have hp1 : (runMitm es2).clientLeg = LegState.connected := hpt.1
    by_cases h2 : (runMitm es2).status = SessionStatus.active
    · exact ((runMitm_inv es2).1 h2).2.2.2.2.2 hp1
    · have hcl2 := ((runMitm_inv es2).2 h2).2.2.2.1
      rw [hcl2] at hp1
      exact absurd hp1 (by decide)

/-- Witness for C5: after a connection sequence in which the two legs
recorded differing channel lists, the demand-active step yields
`NegotiationMismatch` and closes both legs. -/
theorem passthrough_requires_matching_channels_witness :
    (runMitm ([MitmEvent.negotiationStep,
               MitmEvent.mcsConnect [⟨1003, "cliprdr"⟩] [],
               MitmEvent.securityExchange, MitmEvent.clientInfoStep,
               MitmEvent.licensing] ++ [MitmEvent.demandActive [16] [16]])).status
      = SessionStatus.terminated TerminationReason.negotiationMismatch := by
  exact (passthrough_requires_matching_channels
    [MitmEvent.negotiationStep,
     MitmEvent.mcsConnect [⟨1003, "cliprdr"⟩] [],
     MitmEvent.securityExchange, MitmEvent.clientInfoStep, MitmEvent.licensing]
    [16] [16] (by decide) (by decide) (by decide)).1

/-- C7: a close on either leg terminates and finalizes the session exactly
once — the recording is flushed, the live-stream sink is notified, a
termination reason is recorded and both legs are closed — and no run ever
finalizes twice. -/
theorem close_finalizes_exactly_once (es : List MitmEvent) (leg : LegId)
    (h : MitmEvent.closeLeg leg ∈ es) :
    (runMitm es).finalizeCount = 1
    ∧ (runMitm es).recordingFlushed = true
    ∧ (runMitm es).streamNotified = true
    ∧ (∃ r, (runMitm es).status = SessionStatus.terminated r)
    ∧ (runMitm es).clientLeg = LegState.closed
    ∧ (runMitm es).serverLeg = LegState.closed
    ∧ ∀ es2 : List MitmEvent, (runMitm es2).finalizeCount ≤ 1 := by
  have hna : (runMitm es).status ≠ SessionStatus.active :=
    foldl_stepSession_not_active_of_mem es initSession (MitmEvent.closeLeg leg) h
      (fun t => stepSession_close_not_active t leg)
  obtain ⟨hc1, hrf, hsn, hcl, hsl⟩ := (runMitm_inv es).2 hna
  refine ⟨hc1, hrf, hsn, (status_not_active_iff _).mp hna, hcl, hsl, ?_⟩
  intro es2
  by_cases h2 : (runMitm es2).status = SessionStatus.active
  · rw [((runMitm_inv es2).1 h2).1]
    omega
  · rw [((runMitm_inv es2).2 h2).1]

/-- Witness for C7: an abrupt client-leg close mid-negotiation finalizes
the session exactly once. -/
theorem close_finalizes_exactly_once_witness :
    (runMitm [MitmEvent.negotiationStep, MitmEvent.closeLeg LegId.client]).finalizeCount = 1
    ∧ (runMitm [MitmEvent.negotiationStep, MitmEvent.closeLeg LegId.client]).recordingFlushed = true := by
  have h := close_finalizes_exactly_once
    [MitmEvent.negotiationStep, MitmEvent.closeLeg LegId.client] LegId.client (by decide)
  exact ⟨h.1, h.2.1⟩

theorem encodeBody_ne_nil (p : PDU) : encodeBody p ≠ [] := by
  cases p <;> simp [encodeBody]

theorem parseBody_encodeBody (p : PDU) (h : WFPdu p) :
    parseBody (encodeBody p) = some p := by
  cases p with
  | negotiationRequest protos =>
    simp only [WFPdu] at h
    have hv : protos % 256 + 256 * (protos / 256 % 256) + 65536 * (protos / 65536 % 256)
        + 16777216 * (protos / 16777216 % 256) = protos := by omega
    simp [encodeBody, le32, parseBody, le32val, hv]
  | negotiationResponse proto =>
    simp only [WFPdu] at h
    have hv : proto % 256 + 256 * (proto / 256 % 256) + 65536 * (proto / 65536 % 256)
        + 16777216 * (proto / 16777216 % 256) = proto := by omega
    simp [encodeBody, le32, parseBody, le32val, hv]
  | clientInfo user pass =>
    obtain ⟨hu, hp2, htot, hub, hpb⟩ := h
    have hulen : user.length % 256 + 256 * (user.length / 256 % 256) = user.length := by
      omega
    have hplen : pass.length % 256 + 256 * (pass.length / 256 % 256) = pass.length := by
      omega
    have hdrop : (user ++ pass.length % 256 :: pass.length / 256 % 256 :: pass).drop user.length
        = pass.length % 256 :: pass.length / 256 % 256 :: pass := List.drop_left _ _
    have htake : (user ++ pass.length % 256 :: pass.length / 256 % 256 :: pass).take user.length
        = user := List.take_left _ _
    have hle : user.length ≤ (user ++ pass.length % 256 :: pass.length / 256 % 256 :: pass).length := by
      simp
    simp [encodeBody, le16, parseBody, parseClientInfoBody, hulen, hplen, hdrop, htake, hle]
  | virtualChannelData cid payload =>
    obtain ⟨hc, hlen, hb⟩ := h
    have hcid : cid % 256 + 256 * (cid / 256 % 256) = cid := by omega
    simp [encodeBody, le16, parseBody, hcid]
  | opaquePdu tag payload =>
    obtain ⟨hlt, h1, h2, h3, h4, hlen, hb⟩ := h
    simp [encodeBody, parseBody, h1, h2, h3, h4]

theorem decode_exact (body : List Nat) (p : PDU) (hne : body ≠ [])
    (hparse : parseBody body = some p) :
    decode (3 :: 0 :: ((4 + body.length) / 256) :: ((4 + body.length) % 256) :: body)
      = DecodeResult.ok p (4 + body.length) := by
  have htot : 256 * ((4 + body.length) / 256) + (4 + body.length) % 256 = 4 + body.length := by
    omega
  have h1 : ¬(body.length + 4 < 256 * ((4 + body.length) / 256) + (4 + body.length) % 256) := by
    omega
  have hbl : body.length ≠ 0 := fun h0 => hne (List.eq_nil_of_length_eq_zero h0)
  have h3 : ¬(256 * ((4 + body.length) / 256) + (4 + body.length) % 256 < 5) := by
    omega
  simp only [decode]
  rw [if_neg h1, if_neg (by simp), if_neg h3, htot, Nat.add_sub_cancel_left,
    List.take_length, hparse]

/-- C3: codec round-trip law — for every supported (well-formed) PDU
variant, decoding its encoding yields the same PDU with `bytesConsumed`
equal to the length of the encoding. -/
theorem decode_encode_roundtrip (p : PDU) (h : WFPdu p) :
    decode (encode p) = DecodeResult.ok p (encode p).length := by
  have hlen : (encode p).length = 4 + (encodeBody p).length := by
    simp [encode]
    omega
  rw [hlen]
  simp only [encode]
  exact decode_exact (encodeBody p) p (encodeBody_ne_nil p) (parseBody_encodeBody p h)

/-- Witness for C3: a concrete Client Info PDU round-trips. -/
theorem decode_encode_roundtrip_witness :
    WFPdu (PDU.clientInfo [117, 115] [112, 119])
    ∧ decode (encode (PDU.clientInfo [117, 115] [112, 119]))
        = DecodeResult.ok (PDU.clientInfo [117, 115] [112, 119])
            (encode (PDU.clientInfo [117, 115] [112, 119])).length :=
  ⟨by decide, decode_encode_roundtrip (PDU.clientInfo [117, 115] [112, 119]) (by decide)⟩

theorem decode_length_lt_four (buffer : List Nat) (h : buffer.length < 4) :
    decode buffer = DecodeResult.needMoreData := by
  rcases buffer with _ | ⟨a, _ | ⟨b, _ | ⟨c, _ | ⟨d, rest⟩⟩⟩⟩
  · rfl
  · rfl
  · rfl
  · rfl
  · simp [List.length_cons] at h
    omega

theorem decode_malformed_needs_declared (buffer : List Nat)
    (h : decode buffer = DecodeResult.malformed) :
    4 ≤ buffer.length ∧ declaredLen buffer ≤ buffer.length := by
  rcases buffer with _ | ⟨a, _ | ⟨b, _ | ⟨c, _ | ⟨d, rest⟩⟩⟩⟩
  · exact absurd h (by decide)
  · rw [decode_length_lt_four [a] (by simp)] at h
    exact absurd h (by decide)
  · rw [decode_length_lt_four [a, b] (by simp)] at h
    exact absurd h (by decide)
  · rw [decode_length_lt_four [a, b, c] (by simp)] at h
    exact absurd h (by decide)
  · by_cases h1 : rest.length + 4 < 256 * c + d
    · have : decode (a :: b :: c :: d :: rest) = DecodeResult.needMoreData := by
        simp only [decode]
        rw [if_pos h1]
      rw [this] at h
      exact absurd h (by decide)
    · refine ⟨by simp, ?_⟩
      simp only [declaredLen, List.length_cons]
      omega

/-- C6: partial reads — decoding any strict prefix of an encoded PDU
(shorter than the declared full length, which for a well-formed PDU is the
whole encoding) yields `NeedMoreData`, never `Malformed`; and `Malformed`
can only ever be returned once the four header bytes and the full declared
length are available in the buffer. -/
theorem prefix_decode_needMoreData (p : PDU) (k : Nat) (h : WFPdu p)
    (hk : k < (encode p).length) :
    decode ((encode p).take k) = DecodeResult.needMoreData
    ∧ ∀ buffer : List Nat, decode buffer = DecodeResult.malformed →
        4 ≤ buffer.length ∧ declaredLen buffer ≤ buffer.length := by
  refine ⟨?_, decode_malformed_needs_declared⟩
  rcases Nat.lt_or_ge k 4 with h4 | h4
  · apply decode_length_lt_four
    rw [List.length_take]
    omega
  · obtain ⟨m, rfl⟩ : ∃ m, k = m + 4 := ⟨k - 4, by omega⟩
    have hbl : m < (encodeBody p).length := by
      have hlen : (encode p).length = 4 + (encodeBody p).length := by
        simp [encode]
        omega
      omega
    have hcond : ((encodeBody p).take m).length + 4
        < 256 * ((4 + (encodeBody p).length) / 256) + (4 + (encodeBody p).length) % 256 := by
      rw [List.length_take]
      omega
    simp only [encode, List.take_succ_cons]
    simp only [decode]
    rw [if_pos hcond]

/-- Witness for C6: a seven-byte prefix of a concrete encoded Client Info
PDU decodes to `NeedMoreData`. -/
theorem prefix_decode_needMoreData_witness :
    decode ((encode (PDU.clientInfo [117] [112])).take 7) = DecodeResult.needMoreData :=
  (prefix_decode_needMoreData (PDU.clientInfo [117] [112]) 7 (by decide) (by decide)).1

/-- C1: credential substitution — with a substituted pair configured, the
Client Info byte stream sent to the server leg is exactly the encoding of
the substituted pair, independent of anything the client supplied (so it
cannot contain the client's password unless that password's encoding
coincidentally occurs inside the substituted pair's encoding, which the
hypothesis excludes), and the recording sink receives the client's original
credentials, not the substituted ones. -/
theorem substitution_hides_client_password (sub client : CredentialPair)
    (h : bytesContain (encodeUtf16le client.password)
      (encode (PDU.clientInfo (encodeUtf16le sub.username)
        (encodeUtf16le sub.password))) = false) :
    serverLegClientInfoBytes (some sub) client
      = encode (PDU.clientInfo (encodeUtf16le sub.username) (encodeUtf16le sub.password))
    ∧ bytesContain (encodeUtf16le client.password)
        (serverLegClientInfoBytes (some sub) client) = false
    ∧ recordedCredentials (some sub) client = client := by
  refine ⟨rfl, ?_, rfl⟩
  rw [show serverLegClientInfoBytes (some sub) client
    = encode (PDU.clientInfo (encodeUtf16le sub.username) (encodeUtf16le sub.password))
    from rfl]
  exact h

/-- Witness for C1: substituting `admin`/`secret` for a client that sent
`user1`/`pass1` — the server-leg bytes are the substituted encoding, free
of the original password, and the recording keeps `user1`/`pass1`. -/
theorem substitution_hides_client_password_witness :
    serverLegClientInfoBytes (some ⟨"admin", "secret"⟩) ⟨"user1", "pass1"⟩
      = encode (PDU.clientInfo (encodeUtf16le "admin") (encodeUtf16le "secret"))
    ∧ bytesContain (encodeUtf16le "pass1")
        (serverLegClientInfoBytes (some ⟨"admin", "secret"⟩) ⟨"user1", "pass1"⟩) = false
    ∧ recordedCredentials (some ⟨"admin", "secret"⟩) ⟨"user1", "pass1"⟩
      = ⟨"user1", "pass1"⟩ :=
  substitution_hides_client_password ⟨"admin", "secret"⟩ ⟨"user1", "pass1"⟩ (by decide)
